import Mathlib

/-!
Shallow embedding of `analyze_results.py` (S3 Warp Performance Analyzer).

Modelling conventions:
* Text is `List Char`; Python `re` searches are implemented directly for the
  concrete patterns in the script, with `re.search` leftmost-match semantics
  (try every start position from the left, and at a fixed start the patterns
  in this script are deterministic because each greedy token is followed by a
  character it can never match; the only in-position backtracking, the
  non-greedy `.*?99%:` gap of the latency pattern, is modelled by scanning for
  the next viable `99%:` on the same line).
* Python `float`/`int` arithmetic on the short decimal tokens the script
  extracts is modelled exactly over `ℚ`/`ℕ` (`int` truncation of a
  non-negative value is `ℕ` floor division); IEEE round-off, which can only
  matter beyond 2^53, is outside the model.
* File I/O: a log file is its text, or `none` when `open`/`read`/decode
  raises.  `parse_warp_log` returns the record together with a `Bool` that is
  `true` exactly when the Python `except` branch ran (it prints a diagnostic
  and flags failure).  Chart/report rendering is modelled by the artifact
  names written (the pixel content of charts and the prose of the text report
  are outside the claims; report fields not referenced by any claim, such as
  the per-size best table, are omitted from the summary structure).
-/

namespace S3Warp

/-- ASCII whitespace recognized by Python `\s` on these logs. -/
def isSpaceChar (c : Char) : Bool :=
  c = ' ' || c = '\t' || c = '\n' || c = '\r' || c = '\x0b' || c = '\x0c'

/-- Value of a string of decimal digits (most significant first). -/
def natVal (ds : List Char) : ℕ :=
  ds.foldl (fun a c => 10 * a + (c.toNat - 48)) 0

/-- Test that `pat` is a prefix of `l` (case-sensitive), as in Python `str.startswith`. -/
def startsWithL : List Char → List Char → Bool
  | [], _ => true
  | _ :: _, [] => false
  | p :: ps, c :: cs => c = p && startsWithL ps cs

/-- Python `pat in s` substring test (case-sensitive). -/
def hasSub (pat : List Char) : List Char → Bool
  | [] => startsWithL pat []
  | c :: t => startsWithL pat (c :: t) || hasSub pat t

/-- Match a case-sensitive literal at the head, returning the remainder. -/
def stripLit : List Char → List Char → Option (List Char)
  | [], l => some l
  | _ :: _, [] => none
  | p :: ps, c :: cs => if c = p then stripLit ps cs else none

/-- Match a literal at the head case-insensitively (re.IGNORECASE), returning
the actually matched text and the remainder. -/
def stripCI : List Char → List Char → Option (List Char × List Char)
  | [], l => some ([], l)
  | _ :: _, [] => none
  | p :: ps, c :: cs =>
    if c.toLower = p.toLower then
      match stripCI ps cs with
      | some (u, r) => some (c :: u, r)
      | none => none
    else none

/-- Pattern `\s+`: at least one whitespace, consumed greedily. -/
def ws1 (l : List Char) : Option (List Char) :=
  match l with
  | [] => none
  | c :: t => if isSpaceChar c then some (t.dropWhile isSpaceChar) else none

/-- Character class `[\d.]`. -/
def isNumChar (c : Char) : Bool := c.isDigit || c = '.'

/-- Pattern `([\d.]+)`: greedy non-empty run of digits and dots. -/
def numTok (l : List Char) : Option (List Char × List Char) :=
  let t := l.takeWhile isNumChar
  if t.isEmpty then none else some (t, l.drop t.length)

/-- Python `float(tok)` on a `[\d.]+` token, exact over `ℚ`:
defined iff the token has at most one dot and at least one digit. -/
def floatOfTok (t : List Char) : Option ℚ :=
  let ip := t.takeWhile Char.isDigit
  match t.drop ip.length with
  | [] => if ip.isEmpty then none else some (natVal ip)
  | '.' :: frac =>
    if frac.all Char.isDigit && !(ip.isEmpty && frac.isEmpty) then
      some ((natVal ip : ℚ) + (natVal frac : ℚ) / 10 ^ frac.length)
    else none
  | _ => none

/-- The unit alternation `(MiB/s|KiB/s|GiB/s)` of the Average-line pattern,
case-insensitive, capturing the matched text. -/
def matchUnitAt (l : List Char) : Option (List Char × List Char) :=
  match stripCI (("MiB/s").toList) l with
  | some r => some r
  | none =>
    match stripCI (("KiB/s").toList) l with
    | some r => some r
    | none => stripCI (("GiB/s").toList) l

/-- One attempt, at a fixed start position, of
`Report:.*?\n\s*\*\s*Average:\s+([\d.]+)\s+(MiB/s|KiB/s|GiB/s),\s+([\d.]+)\s+obj/s`
(IGNORECASE).  Returns the three captured groups. -/
def matchR1At (l : List Char) : Option (List Char × List Char × List Char) :=
  match stripCI (("Report:").toList) l with
  | none => none
  | some (_, r1) =>
    match r1.dropWhile (fun c => !(c == '\n')) with
    | '\n' :: r2 =>
      match r2.dropWhile isSpaceChar with
      | '*' :: r4 =>
        match stripCI (("Average:").toList) (r4.dropWhile isSpaceChar) with
        | none => none
        | some (_, r6) =>
          match ws1 r6 with
          | none => none
          | some r7 =>
            match numTok r7 with
            | none => none
            | some (vTok, r8) =>
              match ws1 r8 with
              | none => none
              | some r9 =>
                match matchUnitAt r9 with
                | none => none
                | some (u, r10) =>
                  match r10 with
                  | ',' :: r11 =>
                    match ws1 r11 with
                    | none => none
                    | some r12 =>
                      match numTok r12 with
                      | none => none
                      | some (oTok, r13) =>
                        match ws1 r13 with
                        | none => none
                        | some r14 =>
                          match stripCI (("obj/s").toList) r14 with
                          | none => none
                          | some _ => some (vTok, u, oTok)
                  | _ => none
      | _ => none
    | _ => none

/-- Python `re.search`: leftmost match of `m` over the text. -/
def searchWith {α : Type} (m : List Char → Option α) : List Char → Option α
  | [] => none
  | c :: t =>
    match m (c :: t) with
    | some x => some x
    | none => searchWith m t

def searchR1 : List Char → Option (List Char × List Char × List Char) :=
  searchWith matchR1At

/-- One attempt of the tail `99%:\s+([\d.]+)ms` of the latency pattern. -/
def try99 (l : List Char) : Option (List Char) :=
  match stripCI (("99%:").toList) l with
  | none => none
  | some (_, r1) =>
    match ws1 r1 with
    | none => none
    | some r2 =>
      match numTok r2 with
      | none => none
      | some (tok, r3) =>
        match stripCI (("ms").toList) r3 with
        | none => none
        | some _ => some tok

/-- The non-greedy gap `.*?99%:...`: scan forward on the current line
(`.` never matches a newline) for the next viable `99%:` continuation. -/
def find99 : List Char → Option (List Char)
  | [] => none
  | c :: t =>
    if c = '\n' then none
    else
      match try99 (c :: t) with
      | some tok => some tok
      | none => find99 t

/-- One attempt, at a fixed start, of
`Reqs:\s+Avg:\s+([\d.]+)ms,.*?99%:\s+([\d.]+)ms` (IGNORECASE). -/
def matchR2At (l : List Char) : Option (List Char × List Char) :=
  match stripCI (("Reqs:").toList) l with
  | none => none
  | some (_, r1) =>
    match ws1 r1 with
    | none => none
    | some r2 =>
      match stripCI (("Avg:").toList) r2 with
      | none => none
      | some (_, r3) =>
        match ws1 r3 with
        | none => none
        | some r4 =>
          match numTok r4 with
          | none => none
          | some (aTok, r5) =>
            match stripCI (("ms,").toList) r5 with
            | none => none
            | some (_, r6) => (find99 r6).map (fun p => (aTok, p))

def searchR2 : List Char → Option (List Char × List Char) :=
  searchWith matchR2At

/-- One attempt of `Errs:\s*(\d+)` (case-sensitive). -/
def matchR3At (l : List Char) : Option ℕ :=
  match stripLit (("Errs:").toList) l with
  | none => none
  | some r =>
    let ds := (r.dropWhile isSpaceChar).takeWhile Char.isDigit
    if ds.isEmpty then none else some (natVal ds)

def searchR3 : List Char → Option ℕ :=
  searchWith matchR3At

/-- One attempt of `Reqs:\s*(\d+),\s*Errs:` (case-sensitive). -/
def matchR4At (l : List Char) : Option ℕ :=
  match stripLit (("Reqs:").toList) l with
  | none => none
  | some r =>
    let r2 := r.dropWhile isSpaceChar
    let ds := r2.takeWhile Char.isDigit
    if ds.isEmpty then none
    else
      match r2.drop ds.length with
      | ',' :: r3 =>
        match stripLit (("Errs:").toList) (r3.dropWhile isSpaceChar) with
        | none => none
        | some _ => some (natVal ds)
      | _ => none

def searchR4 : List Char → Option ℕ :=
  searchWith matchR4At

/-- The per-log record built by `parse_warp_log` (the `data` dict). -/
structure WarpData where
  throughput_mbps : ℚ := 0
  ops_per_sec : ℚ := 0
  avg_latency_ms : ℚ := 0
  p99_latency_ms : ℚ := 0
  errors : ℕ := 0
  total_ops : ℕ := 0
  success : Bool := true
deriving DecidableEq

/-- Unit normalization of the Average-line value (`'KiB' in unit or 'KB' in
unit` etc. are Python case-sensitive substring tests on the captured text). -/
def convertUnit (u : List Char) (v : ℚ) : ℚ :=
  if hasSub (("KiB").toList) u || hasSub (("KB").toList) u then v / 1024
  else if hasSub (("GiB").toList) u || hasSub (("GB").toList) u then v * 1024
  else v

/-- Average-line block of `parse_warp_log`; `.error` is the `except` path
(a `ValueError` from `float` on a malformed `[\d.]+` token, raised before any
field of this block is assigned). -/
def applyReport (content : List Char) (d : WarpData) : Except WarpData WarpData :=
  match searchR1 content with
  | none => .ok d
  | some (vTok, u, oTok) =>
    match floatOfTok vTok with
    | none => .error { d with success := false }
    | some v =>
      match floatOfTok oTok with
      | none => .error { d with success := false }
      | some ops =>
        .ok { d with throughput_mbps := convertUnit u v, ops_per_sec := ops }

/-- Latency block of `parse_warp_log`: the average latency is assigned before
the p99 token is converted, so a `ValueError` on the p99 token leaves the
average already stored. -/
def applyLatency (content : List Char) (d : WarpData) : Except WarpData WarpData :=
  match searchR2 content with
  | none => .ok d
  | some (aTok, pTok) =>
    match floatOfTok aTok with
    | none => .error { d with success := false }
    | some a =>
      match floatOfTok pTok with
      | none => .error { d with avg_latency_ms := a, success := false }
      | some p => .ok { d with avg_latency_ms := a, p99_latency_ms := p }

/-- Error-count block: `int` on a `\d+` capture cannot raise. -/
def applyErrors (content : List Char) (d : WarpData) : WarpData :=
  match searchR3 content with
  | none => d
  | some n => { d with errors := n, success := if 0 < n then false else d.success }

/-- Total-operations block. -/
def applyTotal (content : List Char) (d : WarpData) : WarpData :=
  match searchR4 content with
  | none => d
  | some n => { d with total_ops := n }

/-- Function `parse_warp_log`: `none` input models `open`/`read`/decode raising.  The
returned `Bool` is `true` iff the `except Exception` branch ran (which prints
an `Error parsing ...` diagnostic and sets `success = False`). -/
def parse_warp_log (file : Option (List Char)) : WarpData × Bool :=
  match file with
  | none => ({ success := false }, true)
  | some content =>
    match applyReport content {} with
    | .error d => (d, true)
    | .ok d1 =>
      match applyLatency content d1 with
      | .error d => (d, true)
      | .ok d2 => (applyTotal content (applyErrors content d2), false)

/-- Value the Average-line extraction alone contributes to
`throughput_mbps` (default 0 on a missed match). -/
def thruOf (r : Option (List Char × List Char × List Char)) : ℚ :=
  match r with
  | none => 0
  | some (v, u, _) =>
    match floatOfTok v with
    | some x => convertUnit u x
    | none => 0

/-- Value the Average-line extraction alone contributes to `ops_per_sec`. -/
def opsOf (r : Option (List Char × List Char × List Char)) : ℚ :=
  match r with
  | none => 0
  | some (_, _, o) => (floatOfTok o).getD 0

/-- Value the latency extraction alone contributes to `avg_latency_ms`. -/
def latAvgOf (r : Option (List Char × List Char)) : ℚ :=
  match r with
  | none => 0
  | some (a, _) => (floatOfTok a).getD 0

/-- Value the latency extraction alone contributes to `p99_latency_ms`. -/
def latP99Of (r : Option (List Char × List Char)) : ℚ :=
  match r with
  | none => 0
  | some (_, p) => (floatOfTok p).getD 0

/-- Value the error-count extraction alone contributes to `errors`. -/
def errsOf (r : Option ℕ) : ℕ := r.getD 0

/-- Value the error-count extraction alone contributes to `success`. -/
def succOf (r : Option ℕ) : Bool :=
  match r with
  | none => true
  | some n => if 0 < n then false else true

/-- Value the request-count extraction alone contributes to `total_ops`. -/
def totOf (r : Option ℕ) : ℕ := r.getD 0

/-- Unit table of `parse_size`: `re.match(r'(\d+(?:\.\d+)?)(KiB|MiB|GiB|KB|MB|GB)?', s)`,
trying the unit alternation right after the number; on no unit the default is
`'B'` with multiplier 1. -/
def matchSizeUnit (l : List Char) : Option ℕ :=
  if startsWithL (("KiB").toList) l then some 1024
  else if startsWithL (("MiB").toList) l then some (1024 ^ 2)
  else if startsWithL (("GiB").toList) l then some (1024 ^ 3)
  else if startsWithL (("KB").toList) l then some 1000
  else if startsWithL (("MB").toList) l then some (1000 ^ 2)
  else if startsWithL (("GB").toList) l then some (1000 ^ 3)
  else none

/-- Function `parse_size(size_str)`: 0 when the regex does not match (no leading
digit); otherwise `int(value * multiplier)` with the fractional part exact
and truncated toward zero. -/
def parse_size (s : List Char) : ℕ :=
  let ds := s.takeWhile Char.isDigit
  if ds.isEmpty then 0
  else
    let rest := s.drop ds.length
    let fr : List Char × List Char :=
      match rest with
      | '.' :: r =>
        let f := r.takeWhile Char.isDigit
        if f.isEmpty then ([], rest) else (f, r.drop f.length)
      | _ => ([], rest)
    let mult := (matchSizeUnit fr.2).getD 1
    natVal ds * mult + natVal fr.1 * mult / 10 ^ fr.1.length

/-- The multiplier table of the spec ("B, KiB, MiB, GiB, KB, MB, GB"). -/
def recognizedUnits : List (List Char × ℕ) :=
  [(("B").toList, 1), (("KiB").toList, 1024), (("MiB").toList, 1024 ^ 2),
   (("GiB").toList, 1024 ^ 3), (("KB").toList, 1000), (("MB").toList, 1000 ^ 2),
   (("GB").toList, 1000 ^ 3)]

/-- A directory entry handed to the collector: the filename stem and the file
text (`none` when reading raises). -/
structure LogFile where
  stem : List Char
  content : Option (List Char)
deriving DecidableEq

/-- A collected test-result record. -/
structure TestResult where
  size_str : List Char
  size_bytes : ℕ
  concurrency : ℕ
  throughput_mbps : ℚ
  ops_per_sec : ℚ
  avg_latency_ms : ℚ
  p99_latency_ms : ℚ
  errors : ℕ
  total_ops : ℕ
  success : Bool
deriving DecidableEq

/-- Python `re.match(r'put_(.+)_c(\d+)', stem)`: greedy `(.+)` takes the longest
newline-free prefix that is still followed by `_c` and a digit; `(\d+)` then
takes the maximal digit run; trailing text is ignored (`re.match` does not
anchor the end). -/
def bestSplit (rest : List Char) : Option ℕ :=
  ((List.range (rest.length + 1)).filter (fun i =>
    decide (1 ≤ i) && (rest.take i).all (fun c => !(c == '\n')) &&
    (match stripLit (("_c").toList) (rest.drop i) with
     | some (d :: _) => d.isDigit
     | _ => false))).getLast?

def matchPutName (stem : List Char) : Option (List Char × ℕ) :=
  match stripLit (("put_").toList) stem with
  | none => none
  | some rest =>
    match bestSplit rest with
    | none => none
    | some i =>
      some (rest.take i, natVal ((rest.drop (i + 2)).takeWhile Char.isDigit))

/-- The record appended by `collect_results` for one matching file. -/
def resultOfFile (f : LogFile) : Option TestResult :=
  (matchPutName f.stem).map (fun gc =>
    let d := (parse_warp_log f.content).1
    { size_str := gc.1, size_bytes := parse_size gc.1, concurrency := gc.2,
      throughput_mbps := d.throughput_mbps, ops_per_sec := d.ops_per_sec,
      avg_latency_ms := d.avg_latency_ms, p99_latency_ms := d.p99_latency_ms,
      errors := d.errors, total_ops := d.total_ops, success := d.success })

/-- Function `collect_results`: every `put_*.log` file whose stem matches the pattern
contributes one record, in directory order; non-matching stems are skipped. -/
def collect_results (files : List LogFile) : List TestResult :=
  files.filterMap resultOfFile

/-- Function `create_charts`, as its observable file-system effects: the `Bool` is the
`mkdir(exist_ok=True)` of the output directory (performed before the empty
check), and the list is the chart files written.  The latency chart is only
written when some record has positive average latency. -/
def create_charts (results : List TestResult) : Bool × List String :=
  (true,
   if results.isEmpty then []
   else
     ["throughput_heatmap.png", "throughput_by_size.png",
      "throughput_by_concurrency.png", "ops_by_size.png"] ++
     (if results.any (fun r => 0 < r.avg_latency_ms) then
       ["latency_analysis.png"] else []) ++
     ["optimal_configurations.png"])

/-- Insert into a sorted list (ascending). -/
def insertSorted (x : ℕ) : List ℕ → List ℕ
  | [] => [x]
  | y :: ys => if x ≤ y then x :: y :: ys else y :: insertSorted x ys

def sortNats (l : List ℕ) : List ℕ := l.foldr insertSorted []

/-- Keys of a Python dict built by first insertion: first-occurrence order. -/
def dedupKeepFirstGo : List ℕ → List ℕ → List ℕ
  | [], _ => []
  | x :: xs, seen =>
    if x ∈ seen then dedupKeepFirstGo xs seen
    else x :: dedupKeepFirstGo xs (x :: seen)

def dedupKeepFirst (l : List ℕ) : List ℕ := dedupKeepFirstGo l []

/-- Python `by_concurrency[c]`: throughputs of all records at concurrency `c`. -/
def throughputsAt (rs : List TestResult) (c : ℕ) : List ℚ :=
  (rs.filter (fun r => r.concurrency = c)).map (fun r => r.throughput_mbps)

/-- Python `np.mean`, exact over `ℚ`. -/
def meanQ (l : List ℚ) : ℚ := l.sum / (l.length : ℚ)

/-- Python `sorted_conc` paired with `conc_avg`: the distinct concurrency levels in
ascending order, each with its mean throughput. -/
def concAvgPairs (rs : List TestResult) : List (ℕ × ℚ) :=
  (sortNats (dedupKeepFirst (rs.map (fun r => r.concurrency)))).map
    (fun c => (c, meanQ (throughputsAt rs c)))

/-- The breakdown loop body after the first level: report the first level
whose mean is below `breakdown_threshold = 0.8` times the previous level's
mean, together with the two means printed, and `break`. -/
def breakdownAux : ℚ → List (ℕ × ℚ) → Option (ℕ × ℚ × ℚ)
  | _, [] => none
  | prev, p :: rest =>
    if p.2 < prev * (4 / 5) then some (p.1, p.2, prev)
    else breakdownAux p.2 rest

def breakdownScan : List (ℕ × ℚ) → Option (ℕ × ℚ × ℚ)
  | [] => none
  | p :: rest => breakdownAux p.2 rest

/-- The breakdown detector of `generate_summary_report` (lines 515-535). -/
def breakdownDetect (rs : List TestResult) : Option (ℕ × ℚ × ℚ) :=
  breakdownScan (concAvgPairs rs)

/-- The mean the breakdown loop compares entry `i` of the remaining pair list
against: the accumulator for `i = 0`, otherwise the previous entry's mean. -/
def prevOf (prev : ℚ) (rest : List (ℕ × ℚ)) (i : ℕ) : ℚ :=
  if i = 0 then prev else (rest.getD (i - 1) (0, 0)).2

/-- The example of the spec: concurrency levels 8, 16, 32, one record each,
with mean throughputs 100, 120, 90. -/
def exampleResults : List TestResult :=
  [{ size_str := ("4MiB").toList, size_bytes := 4194304, concurrency := 8,
     throughput_mbps := 100, ops_per_sec := 50, avg_latency_ms := 10,
     p99_latency_ms := 20, errors := 0, total_ops := 1000, success := true },
   { size_str := ("4MiB").toList, size_bytes := 4194304, concurrency := 16,
     throughput_mbps := 120, ops_per_sec := 60, avg_latency_ms := 12,
     p99_latency_ms := 24, errors := 0, total_ops := 1200, success := true },
   { size_str := ("4MiB").toList, size_bytes := 4194304, concurrency := 32,
     throughput_mbps := 90, ops_per_sec := 45, avg_latency_ms := 30,
     p99_latency_ms := 60, errors := 0, total_ops := 900, success := true }]

/-- Python `max(results, key=...)`: first element with maximal key. -/
def maxByThroughput (l : List TestResult) : Option TestResult :=
  l.foldl (fun acc r =>
    match acc with
    | none => some r
    | some b => if b.throughput_mbps < r.throughput_mbps then some r else some b)
    none

/-- Python `max(conc_avg, key=conc_avg.get)`: first key (dict insertion order) with
maximal mean throughput. -/
def firstMaxConc (rs : List TestResult) : Option ℕ :=
  (dedupKeepFirst (rs.map (fun r => r.concurrency))).foldl (fun acc c =>
    match acc with
    | none => some c
    | some b =>
      if meanQ (throughputsAt rs b) < meanQ (throughputsAt rs c) then some c
      else some b) none

/-- The data of the text summary report that the claims reference (the
rendered prose and the per-size best table are outside the claims). -/
structure SummaryReport where
  totalTests : ℕ
  successful : ℕ
  failed : ℕ
  best : Option TestResult
  peakConc : Option ℕ
  breakdown : Option (ℕ × ℚ × ℚ)
deriving DecidableEq

/-- Function `generate_summary_report`: returns `none` (no file written) on an empty
result list, otherwise the report data. -/
def generate_summary_report (results : List TestResult) : Option SummaryReport :=
  if results.isEmpty then none
  else
    some { totalTests := results.length,
           successful := (results.filter (fun r => r.success)).length,
           failed := results.length - (results.filter (fun r => r.success)).length,
           best := maxByThroughput results,
           peakConc := firstMaxConc results,
           breakdown := breakdownDetect results }

/-! ### Helper lemmas -/

theorem takeWhile_append_of_all {p : Char → Bool} :
    ∀ {l : List Char} (r : List Char), (∀ c ∈ l, p c = true) →
      (l ++ r).takeWhile p = l ++ r.takeWhile p
  | [], r, _ => rfl
  | c :: t, r, h => by
    have hc : p c = true := h c (List.mem_cons_self c t)
    have ih := takeWhile_append_of_all (l := t) r
      (fun x hx => h x (List.mem_cons_of_mem c hx))
    simp only [List.cons_append, List.takeWhile_cons, hc, if_true, ih]

theorem dropWhile_append_of_all {p : Char → Bool} :
    ∀ {l : List Char} (r : List Char), (∀ c ∈ l, p c = true) →
      (l ++ r).dropWhile p = r.dropWhile p
  | [], r, _ => rfl
  | c :: t, r, h => by
    have hc : p c = true := h c (List.mem_cons_self c t)
    simp only [List.cons_append, List.dropWhile_cons, hc, if_true]
    exact dropWhile_append_of_all r (fun x hx => h x (List.mem_cons_of_mem c hx))

theorem searchWith_append_none {α : Type} (m : List Char → Option α) :
    ∀ (a t : List Char), (∀ i, i < a.length → m ((a ++ t).drop i) = none) →
      searchWith m (a ++ t) = searchWith m t
  | [], _, _ => rfl
  | c :: a', t, h => by
    have h0 : m (c :: (a' ++ t)) = none := by
      have := h 0 (by simp)
      simpa using this
    show searchWith m (c :: (a' ++ t)) = searchWith m t
    rw [searchWith, h0]
    exact searchWith_append_none m a' t (fun i hi => by
      have := h (i + 1) (by simpa using Nat.succ_lt_succ hi)
      simpa using this)

theorem searchWith_cons_of_match {α : Type} (m : List Char → Option α)
    (c : Char) (t : List Char) (x : α) (h : m (c :: t) = some x) :
    searchWith m (c :: t) = some x := by
  rw [searchWith, h]

/-! ### Claims C2 and C3: the size parser -/

/-- Claim C2, counterexample to the claim as stated: `"0.1KiB"` is a number
followed by a recognized unit, but `parse_size` returns 102, not the exact
product 0.1 × 1024 = 102.4 (the product is truncated to a whole byte count). -/
theorem parse_size_frac_cex :
    parse_size (("0.1KiB").toList) = 102 ∧ ¬ ((102 : ℚ) = (1 / 10) * 1024) :=
  ⟨by decide, by norm_num⟩

/-- Claim C2 (amended): for every size string consisting of a whole number
(a non-empty digit string) followed by one of the recognized units B, KiB,
MiB, GiB, KB, MB, GB, `parse_size` returns exactly the number times the
unit's multiplier (1, 1024, 1024², 1024³, 1000, 1000², 1000³); a fractional
number is truncated toward zero after multiplication. -/
theorem parse_size_exact (ds u : List Char) (m : ℕ) (hne : ds ≠ [])
    (hd : ∀ c ∈ ds, c.isDigit = true) (hu : (u, m) ∈ recognizedUnits) :
    parse_size (ds ++ u) = natVal ds * m := by
  have hemp : ds.isEmpty = false := by
    cases ds with
    | nil => exact absurd rfl hne
    | cons c t => rfl
  have htw : ∀ r : List Char,
      (ds ++ r).takeWhile Char.isDigit = ds ++ r.takeWhile Char.isDigit :=
    fun r => takeWhile_append_of_all r hd
  simp only [recognizedUnits, List.mem_cons, List.mem_singleton, Prod.mk.injEq,
    List.not_mem_nil, or_false] at hu
  rcases hu with ⟨h1, h2⟩ | ⟨h1, h2⟩ | ⟨h1, h2⟩ | ⟨h1, h2⟩ | ⟨h1, h2⟩ |
    ⟨h1, h2⟩ | ⟨h1, h2⟩ <;> subst h1 <;> subst h2 <;>
    simp +decide [parse_size, htw, hemp, List.drop_left, natVal, matchSizeUnit,
      startsWithL]

/-- Claim C2 witness: `"4MiB"` maps to 4,194,304 and `"256KB"` to 256,000. -/
theorem parse_size_exact_spot :
    parse_size (("4MiB").toList) = 4194304 ∧
    parse_size (("256KB").toList) = 256000 := by
  constructor
  · have h := parse_size_exact (("4").toList) (("MiB").toList) (1024 ^ 2)
      (by decide) (by decide) (by decide)
    rw [show (("4MiB").toList) = ("4").toList ++ ("MiB").toList from rfl, h]
    decide
  · have h := parse_size_exact (("256").toList) (("KB").toList) 1000
      (by decide) (by decide) (by decide)
    rw [show (("256KB").toList) = ("256").toList ++ ("KB").toList from rfl, h]
    decide

/-- Claim C3, counterexample to the claim as stated: `"4XB"` has the
unrecognized unit `"XB"`, yet `parse_size` returns 4 (the number with default
multiplier 1), not 0. -/
theorem parse_size_unrec_cex :
    parse_size (("4XB").toList) = 4 ∧ (4 : ℕ) ≠ 0 :=
  ⟨by decide, by decide⟩

/-- Claim C3 (amended): `parse_size` never raises, and a string that does not
begin with a digit (the only way the regex fails to match) yields 0; a string
beginning with a number whose following text is not a recognized unit yields
the number itself, the unit being ignored and treated as bytes. -/
theorem parse_size_nodigit (s : List Char)
    (h : ∀ c, s.head? = some c → c.isDigit = false) : parse_size s = 0 := by
  cases s with
  | nil => rfl
  | cons c t =>
    have hc : c.isDigit = false := h c rfl
    simp [parse_size, List.takeWhile_cons, hc]

/-- Claim C3 witness: `"MiB"` (no leading digit) parses to 0. -/
theorem parse_size_nodigit_spot : parse_size (("MiB").toList) = 0 :=
  parse_size_nodigit (("MiB").toList) (by decide)

/-! ### Claim C9: empty result set -/

/-- Claim C9: with an empty result list, chart generation writes no chart
files (only the idempotent `mkdir` of the output directory happens first) and
summary-report generation writes no report; neither raises. -/
theorem empty_results_short_circuit :
    create_charts [] = (true, []) ∧ generate_summary_report [] = none :=
  ⟨rfl, rfl⟩

/-! ### Claim C1: the breakdown detector -/

theorem prevOf_cons (prev : ℚ) (p : ℕ × ℚ) (t : List (ℕ × ℚ)) (j : ℕ) :
    prevOf prev (p :: t) (j + 1) = prevOf p.2 t j := by
  cases j with
  | zero => simp [prevOf]
  | succ k => simp [prevOf, List.getD_cons_succ]

theorem prevOf_eq_getD (p : ℕ × ℚ) (t : List (ℕ × ℚ)) (j : ℕ) :
    prevOf p.2 t j = ((p :: t).getD j (0, 0)).2 := by
  cases j with
  | zero => simp [prevOf]
  | succ k => simp [prevOf, List.getD_cons_succ]

theorem breakdownAux_iff :
    ∀ (rest : List (ℕ × ℚ)) (prev : ℚ) (out : ℕ × ℚ × ℚ),
      breakdownAux prev rest = some out ↔
        ∃ i, i < rest.length ∧
          (rest.getD i (0, 0)).2 < prevOf prev rest i * (4 / 5) ∧
          out = ((rest.getD i (0, 0)).1, (rest.getD i (0, 0)).2,
                 prevOf prev rest i) ∧
          ∀ j, j < i →
            ¬ ((rest.getD j (0, 0)).2 < prevOf prev rest j * (4 / 5))
  | [], prev, out => by simp [breakdownAux]
  | p :: t, prev, out => by
    by_cases hb : p.2 < prev * (4 / 5)
    · rw [breakdownAux, if_pos hb]
      constructor
      · intro h
        refine ⟨0, by simp, ?_, ?_, ?_⟩
        · simpa [prevOf] using hb
        · simpa [prevOf] using (Option.some.inj h).symm
        · intro j hj; omega
      · rintro ⟨i, hlen, hbad, hout, hmin⟩
        cases i with
        | zero =>
          simp only [List.getD_cons_zero] at hout
          simp [prevOf] at hout
          rw [hout]
        | succ i' =>
          exact absurd (by simpa [prevOf] using hb) (hmin 0 (Nat.succ_pos i'))
    · rw [breakdownAux, if_neg hb]
      rw [breakdownAux_iff t p.2 out]
      constructor
      · rintro ⟨i, hlen, hbad, hout, hmin⟩
        refine ⟨i + 1, by simpa using Nat.succ_lt_succ hlen, ?_, ?_, ?_⟩
        · simpa [List.getD_cons_succ, prevOf_cons] using hbad
        · simpa [List.getD_cons_succ, prevOf_cons] using hout
        · intro j hj
          cases j with
          | zero => simpa [prevOf] using hb
          | succ k =>
            have hk : k < i := by omega
            simpa [List.getD_cons_succ, prevOf_cons] using hmin k hk
      · rintro ⟨i, hlen, hbad, hout, hmin⟩
        cases i with
        | zero => exact absurd (by simpa [prevOf] using hbad) hb
        | succ i' =>
          refine ⟨i', by simpa using hlen, ?_, ?_, ?_⟩
          · simpa [List.getD_cons_succ, prevOf_cons] using hbad
          · simpa [List.getD_cons_succ, prevOf_cons] using hout
          · intro k hk
            have := hmin (k + 1) (by omega)
            simpa [List.getD_cons_succ, prevOf_cons] using this

theorem breakdownScan_iff (ps : List (ℕ × ℚ)) (out : ℕ × ℚ × ℚ) :
    breakdownScan ps = some out ↔
      ∃ i, 0 < i ∧ i < ps.length ∧
        (ps.getD i (0, 0)).2 < (ps.getD (i - 1) (0, 0)).2 * (4 / 5) ∧
        out = ((ps.getD i (0, 0)).1, (ps.getD i (0, 0)).2,
               (ps.getD (i - 1) (0, 0)).2) ∧
        ∀ j, 0 < j → j < i →
          ¬ ((ps.getD j (0, 0)).2 < (ps.getD (j - 1) (0, 0)).2 * (4 / 5)) := by
  cases ps with
  | nil =>
    simp only [breakdownScan]
    constructor
    · intro h; exact absurd h (by simp)
    · rintro ⟨i, h0, hlen, _⟩; exact absurd hlen (by simp)
  | cons p t =>
    rw [breakdownScan, breakdownAux_iff t p.2 out]
    constructor
    · rintro ⟨i, hlen, hbad, hout, hmin⟩
      refine ⟨i + 1, Nat.succ_pos i, by simpa using Nat.succ_lt_succ hlen,
        ?_, ?_, ?_⟩
      · simpa [List.getD_cons_succ, prevOf_eq_getD] using hbad
      · simpa [List.getD_cons_succ, prevOf_eq_getD] using hout
      · intro j hj0 hji
        obtain ⟨k, rfl⟩ : ∃ k, j = k + 1 := ⟨j - 1, by omega⟩
        have hk : k < i := by omega
        simpa [List.getD_cons_succ, prevOf_eq_getD] using hmin k hk
    · rintro ⟨i, h0, hlen, hbad, hout, hmin⟩
      obtain ⟨i', rfl⟩ : ∃ k, i = k + 1 := ⟨i - 1, by omega⟩
      refine ⟨i', by simpa using hlen, ?_, ?_, ?_⟩
      · simpa [List.getD_cons_succ, prevOf_eq_getD] using hbad
      · simpa [List.getD_cons_succ, prevOf_eq_getD] using hout
      · intro k hk
        have := hmin (k + 1) (Nat.succ_pos k) (by omega)
        simpa [List.getD_cons_succ, prevOf_eq_getD] using this

/-- Claim C1: the breakdown detector reports exactly the first concurrency
level, in ascending order (`concAvgPairs` lists the levels ascending with
their mean throughputs), whose mean throughput is strictly below 80% of the
previous level's mean, together with the two means printed — and only that
first such level.  (The threshold 0.8 is modelled as the exact rational
4/5.) -/
theorem breakdown_first (rs : List TestResult) (out : ℕ × ℚ × ℚ) :
    breakdownDetect rs = some out ↔
      ∃ i, 0 < i ∧ i < (concAvgPairs rs).length ∧
        ((concAvgPairs rs).getD i (0, 0)).2 <
          ((concAvgPairs rs).getD (i - 1) (0, 0)).2 * (4 / 5) ∧
        out = (((concAvgPairs rs).getD i (0, 0)).1,
               ((concAvgPairs rs).getD i (0, 0)).2,
               ((concAvgPairs rs).getD (i - 1) (0, 0)).2) ∧
        ∀ j, 0 < j → j < i →
          ¬ (((concAvgPairs rs).getD j (0, 0)).2 <
             ((concAvgPairs rs).getD (j - 1) (0, 0)).2 * (4 / 5)) :=
  breakdownScan_iff (concAvgPairs rs) out

/-- Claim C1 witness: for concurrency levels [8, 16, 32] with mean
throughputs [100, 120, 90], the detector reports concurrency 32 (with means
90 and 120): 16 is not reported (120 ≥ 100·0.8) and 32 is (90 < 120·0.8). -/
theorem breakdown_first_spot :
    breakdownDetect exampleResults = some (32, 90, 120) := by
  have hps : concAvgPairs exampleResults = [(8, 100), (16, 120), (32, 90)] := by
    with_unfolding_all rfl
  refine (breakdown_first exampleResults (32, 90, 120)).mpr
    ⟨2, by omega, ?_, ?_, ?_, ?_⟩
  · rw [hps]; norm_num
  · rw [hps]; norm_num [List.getD]
  · rw [hps]; norm_num [List.getD]
  · intro j h0 hj
    have hj1 : j = 1 := by omega
    subst hj1
    rw [hps]; norm_num [List.getD]

/-! ### Claim C7: failed reads and the collector -/

/-- Claim C7: a file whose read or decode fails yields a record with
`success = false` and every numeric field zero (and the `except` branch that
prints the diagnostic runs, third conjunct); the collector still appends that
record and continues with the remaining files (first conjunct: collection
distributes over any split of the file list), so zeroed records sit in the
result list exactly like genuine ones. -/
theorem collect_failure_record :
    (∀ fs1 fs2 : List LogFile,
       collect_results (fs1 ++ fs2) =
         collect_results fs1 ++ collect_results fs2) ∧
    (∀ (f : LogFile) (g : List Char) (c : ℕ),
       matchPutName f.stem = some (g, c) → f.content = none →
       collect_results [f] =
         [{ size_str := g, size_bytes := parse_size g, concurrency := c,
            throughput_mbps := 0, ops_per_sec := 0, avg_latency_ms := 0,
            p99_latency_ms := 0, errors := 0, total_ops := 0,
            success := false }]) ∧
    (parse_warp_log none).2 = true := by
  refine ⟨?_, ?_, rfl⟩
  · intro fs1 fs2
    simp [collect_results, List.filterMap_append]
  · intro f g c hm hc
    simp [collect_results, resultOfFile, hm, hc, parse_warp_log]

/-- Claim C7 witness: an unreadable `put_4MiB_c16.log` still contributes a
zeroed failure record. -/
theorem collect_failure_record_spot :
    collect_results [{ stem := ("put_4MiB_c16").toList, content := none }] =
      [{ size_str := ("4MiB").toList, size_bytes := 4194304, concurrency := 16,
         throughput_mbps := 0, ops_per_sec := 0, avg_latency_ms := 0,
         p99_latency_ms := 0, errors := 0, total_ops := 0,
         success := false }] := by
  have h := collect_failure_record.2.1
    { stem := ("put_4MiB_c16").toList, content := none }
    (("4MiB").toList) 16 (by decide) rfl
  rw [h]
  decide

/-! ### Field bookkeeping of `parse_warp_log` -/

theorem applyLatency_keeps (c : List Char) (d d' : WarpData)
    (h : applyLatency c d = .ok d' ∨ applyLatency c d = .error d') :
    d'.throughput_mbps = d.throughput_mbps ∧ d'.ops_per_sec = d.ops_per_sec ∧
    d'.errors = d.errors ∧ d'.total_ops = d.total_ops := by
  cases hs : searchR2 c with
  | none =>
    simp only [applyLatency, hs] at h
    rcases h with h | h <;> simp at h
    subst h; simp
  | some ap =>
    obtain ⟨a, p⟩ := ap
    cases hfa : floatOfTok a with
    | none =>
      simp only [applyLatency, hs, hfa] at h
      rcases h with h | h <;> simp at h
      subst h; simp
    | some va =>
      cases hfp : floatOfTok p with
      | none =>
        simp only [applyLatency, hs, hfa, hfp] at h
        rcases h with h | h <;> simp at h
        subst h; simp
      | some vp =>
        simp only [applyLatency, hs, hfa, hfp] at h
        rcases h with h | h <;> simp at h
        subst h; simp

theorem applyErrors_keeps (c : List Char) (d : WarpData) :
    (applyErrors c d).throughput_mbps = d.throughput_mbps ∧
    (applyErrors c d).ops_per_sec = d.ops_per_sec ∧
    (applyErrors c d).avg_latency_ms = d.avg_latency_ms ∧
    (applyErrors c d).p99_latency_ms = d.p99_latency_ms ∧
    (applyErrors c d).total_ops = d.total_ops := by
  unfold applyErrors
  cases searchR3 c <;> simp

theorem applyTotal_keeps (c : List Char) (d : WarpData) :
    (applyTotal c d).throughput_mbps = d.throughput_mbps ∧
    (applyTotal c d).ops_per_sec = d.ops_per_sec ∧
    (applyTotal c d).avg_latency_ms = d.avg_latency_ms ∧
    (applyTotal c d).p99_latency_ms = d.p99_latency_ms ∧
    (applyTotal c d).errors = d.errors ∧
    (applyTotal c d).success = d.success := by
  unfold applyTotal
  cases searchR4 c <;> simp

theorem applyReport_ok_eq (c : List Char) (d' : WarpData)
    (h : applyReport c ({} : WarpData) = .ok d') :
    d' = { throughput_mbps := thruOf (searchR1 c),
           ops_per_sec := opsOf (searchR1 c) } := by
  cases hs : searchR1 c with
  | none =>
    simp only [applyReport, hs] at h
    simp at h
    subst h
    simp [thruOf, opsOf]
  | some vuo =>
    obtain ⟨vTok, u, oTok⟩ := vuo
    cases hv : floatOfTok vTok with
    | none => simp only [applyReport, hs, hv] at h; simp at h
    | some v =>
      cases ho : floatOfTok oTok with
      | none => simp only [applyReport, hs, hv, ho] at h; simp at h
      | some o =>
        simp only [applyReport, hs, hv, ho] at h
        simp at h
        subst h
        simp [thruOf, opsOf, hv, ho]

theorem applyLatency_ok_eq (c : List Char) (d d' : WarpData)
    (h : applyLatency c d = .ok d')
    (h1 : d.avg_latency_ms = 0) (h2 : d.p99_latency_ms = 0) :
    d' = { d with avg_latency_ms := latAvgOf (searchR2 c),
                  p99_latency_ms := latP99Of (searchR2 c) } := by
  obtain ⟨f1, f2, f3, f4, f5, f6, f7⟩ := d
  simp only at h1 h2
  subst h1; subst h2
  cases hs : searchR2 c with
  | none =>
    simp only [applyLatency, hs] at h
    simp at h
    subst h
    simp [latAvgOf, latP99Of]
  | some ap =>
    obtain ⟨a, p⟩ := ap
    cases hfa : floatOfTok a with
    | none => simp only [applyLatency, hs, hfa] at h; simp at h
    | some va =>
      cases hfp : floatOfTok p with
      | none => simp only [applyLatency, hs, hfa, hfp] at h; simp at h
      | some vp =>
        simp only [applyLatency, hs, hfa, hfp] at h
        simp at h
        subst h
        simp [latAvgOf, latP99Of, hfa, hfp]

/-- On the exception-free path the record is assembled field-by-field from
the four independent extractions. -/
theorem parse_noexc_eq (c : List Char)
    (h : (parse_warp_log (some c)).2 = false) :
    (parse_warp_log (some c)).1 =
      { throughput_mbps := thruOf (searchR1 c),
        ops_per_sec := opsOf (searchR1 c),
        avg_latency_ms := latAvgOf (searchR2 c),
        p99_latency_ms := latP99Of (searchR2 c),
        errors := errsOf (searchR3 c), total_ops := totOf (searchR4 c),
        success := succOf (searchR3 c) } := by
  cases hr : applyReport c ({} : WarpData) with
  | error d =>
    simp only [parse_warp_log, hr] at h
    exact absurd h (by simp)
  | ok d1 =>
    cases hl : applyLatency c d1 with
    | error d =>
      simp only [parse_warp_log, hr, hl] at h
      exact absurd h (by simp)
    | ok d2 =>
      have e1 := applyReport_ok_eq c d1 hr
      have e2 := applyLatency_ok_eq c d1 d2 hl (by rw [e1]) (by rw [e1])
      rw [e1] at e2
      simp only [parse_warp_log, hr, hl]
      subst e2
      cases h3 : searchR3 c <;> cases h4 : searchR4 c <;>
        simp [applyErrors, applyTotal, h3, h4, errsOf, succOf, totOf]

/-! ### Claim C4: unit normalization of the Average line -/

/-- Claim C4: when the Average-line extraction matches, with a throughput
value that converts (`float` succeeds on both numeric tokens), a unit
captured as `GiB/s` is multiplied by 1024 before being stored in
`throughput_mbps`, `KiB/s` is divided by 1024, and `MiB/s` is stored
unchanged. -/
theorem unit_normalization (c vTok u oTok : List Char) (v o : ℚ)
    (h1 : searchR1 c = some (vTok, u, oTok))
    (hv : floatOfTok vTok = some v) (ho : floatOfTok oTok = some o) :
    (u = ("GiB/s").toList →
      (parse_warp_log (some c)).1.throughput_mbps = v * 1024) ∧
    (u = ("KiB/s").toList →
      (parse_warp_log (some c)).1.throughput_mbps = v / 1024) ∧
    (u = ("MiB/s").toList →
      (parse_warp_log (some c)).1.throughput_mbps = v) := by
  have hstage : applyReport c ({} : WarpData) =
      .ok { throughput_mbps := convertUnit u v, ops_per_sec := o } := by
    simp [applyReport, h1, hv, ho]
  have hthru : (parse_warp_log (some c)).1.throughput_mbps = convertUnit u v := by
    cases hl : applyLatency c
        { throughput_mbps := convertUnit u v, ops_per_sec := o } with
    | error d =>
      have hp : parse_warp_log (some c) = (d, true) := by
        simp [parse_warp_log, hstage, hl]
      rw [hp]
      exact (applyLatency_keeps c _ d (Or.inr hl)).1
    | ok d2 =>
      have hp : parse_warp_log (some c) =
          (applyTotal c (applyErrors c d2), false) := by
        simp [parse_warp_log, hstage, hl]
      rw [hp]
      have k2 := (applyLatency_keeps c _ d2 (Or.inl hl)).1
      have k3 := (applyErrors_keeps c d2).1
      have k4 := (applyTotal_keeps c (applyErrors c d2)).1
      show (applyTotal c (applyErrors c d2)).throughput_mbps = convertUnit u v
      rw [k4, k3, k2]
  refine ⟨fun hu => ?_, fun hu => ?_, fun hu => ?_⟩ <;> subst hu <;>
    rw [hthru] <;> simp +decide [convertUnit]

/-- Claim C4 witness: a 2.5 GiB/s average is stored as 2560. -/
theorem unit_normalization_spot :
    (parse_warp_log (some
      (("Report: PUT\n * Average: 2.5 GiB/s, 4.0 obj/s").toList))).1.throughput_mbps
      = 2560 := by
  have hs : searchR1 (("Report: PUT\n * Average: 2.5 GiB/s, 4.0 obj/s").toList) =
      some ((("2.5").toList), (("GiB/s").toList), (("4.0").toList)) := by decide
  have hv : floatOfTok (("2.5").toList) = some (5 / 2) := by
    with_unfolding_all rfl
  have ho : floatOfTok (("4.0").toList) = some 4 := by
    with_unfolding_all rfl
  have h := (unit_normalization _ _ _ _ _ _ hs hv ho).1 rfl
  rw [h]
  norm_num

/-! ### Claim C8: independence of the three extractions -/

/-- Claim C8, counterexample to the claim as stated: the latency extraction
matches identically on the two logs (first conjunct), yet adding an
Average-line match whose numeric token `1..2` fails `float` zeroes the
latency fields — the presence of extraction 1's match changed the field set
by extraction 2. -/
theorem independence_cex :
    searchR2 (("Report: A\n * Average: 1..2 MiB/s, 3.0 obj/s\nReqs: Avg: 5.0ms, 99%: 6.0ms").toList) =
      searchR2 (("Reqs: Avg: 5.0ms, 99%: 6.0ms").toList) ∧
    (parse_warp_log (some
      (("Reqs: Avg: 5.0ms, 99%: 6.0ms").toList))).1.avg_latency_ms = 5 ∧
    (parse_warp_log (some
      (("Report: A\n * Average: 1..2 MiB/s, 3.0 obj/s\nReqs: Avg: 5.0ms, 99%: 6.0ms").toList))).1.avg_latency_ms = 0 := by
  refine ⟨by decide, ?_, ?_⟩ <;> with_unfolding_all rfl

/-- Claim C8 (amended): provided the parser's exception branch does not run
(every numeric token of a matched line converts), the three extractions are
independent: each field of the record is a function of its own extraction
alone, and a missed match leaves exactly that extraction's fields at their
defaults.  (With a malformed token the `except` branch aborts the remaining
extractions, leaving their fields at defaults and `success = false`.) -/
theorem extraction_independence (c : List Char)
    (h : (parse_warp_log (some c)).2 = false) :
    (parse_warp_log (some c)).1 =
      { throughput_mbps := thruOf (searchR1 c),
        ops_per_sec := opsOf (searchR1 c),
        avg_latency_ms := latAvgOf (searchR2 c),
        p99_latency_ms := latP99Of (searchR2 c),
        errors := errsOf (searchR3 c), total_ops := totOf (searchR4 c),
        success := succOf (searchR3 c) } :=
  parse_noexc_eq c h

/-- Claim C8 witness: a log with only a request/error line fills exactly the
error-extraction fields, all others staying at their defaults. -/
theorem extraction_independence_spot :
    (parse_warp_log (some (("Reqs: 90, Errs:0, Objs:90").toList))).1 =
      { throughput_mbps := 0, ops_per_sec := 0, avg_latency_ms := 0,
        p99_latency_ms := 0, errors := 0, total_ops := 90,
        success := true } := by
  have h := extraction_independence (("Reqs: 90, Errs:0, Objs:90").toList)
    (by with_unfolding_all rfl)
  rw [h]
  with_unfolding_all rfl

/-! ### Claim C5: error count and the success flag -/

theorem isSpaceChar_false_of_digit (c : Char) (h : c.isDigit = true) :
    isSpaceChar c = false := by
  simp only [Char.isDigit, Bool.and_eq_true, decide_eq_true_eq] at h
  obtain ⟨hl, _⟩ := h
  simp only [isSpaceChar, Bool.or_eq_false_iff, decide_eq_false_iff_not]
  refine ⟨⟨⟨⟨⟨?_, ?_⟩, ?_⟩, ?_⟩, ?_⟩, ?_⟩ <;>
    (rintro rfl; exact absurd hl (by decide))

theorem matchR3At_eq_none (l : List Char)
    (h : stripLit (("Errs:").toList) l = none) : matchR3At l = none := by
  have h' : stripLit ('E' :: 'r' :: 'r' :: 's' :: ':' :: []) l = none := h
  simp [matchR3At, h']

theorem searchR3_first (a b : List Char) (n : Char) (hn : n.isDigit = true)
    (h1 : ∀ i, i < a.length →
      stripLit (("Errs:").toList)
        ((a ++ ('E' :: 'r' :: 'r' :: 's' :: ':' :: ' ' :: n :: b)).drop i) = none)
    (hb : ∀ c, b.head? = some c → c.isDigit = false) :
    searchR3 (a ++ ('E' :: 'r' :: 'r' :: 's' :: ':' :: ' ' :: n :: b)) =
      some (natVal [n]) := by
  have htw : (n :: b).takeWhile Char.isDigit = [n] := by
    cases b with
    | nil => simp [List.takeWhile_cons, hn]
    | cons c t => simp [List.takeWhile_cons, hn, hb c rfl]
  have hm : matchR3At ('E' :: 'r' :: 'r' :: 's' :: ':' :: ' ' :: n :: b) =
      some (natVal [n]) := by
    simp +decide [matchR3At, stripLit, List.dropWhile_cons,
      isSpaceChar_false_of_digit n hn, htw]
  have hskip := searchWith_append_none matchR3At a
    ('E' :: 'r' :: 'r' :: 's' :: ':' :: ' ' :: n :: b)
    (fun i hi => matchR3At_eq_none _ (h1 i hi))
  show searchWith matchR3At _ = _
  rw [hskip]
  exact searchWith_cons_of_match matchR3At 'E' _ _ hm

/-- Claim C5, counterexample to the claim as stated: the log's first (and
only) `Errs` occurrence is `Errs: 3`, but a malformed numeric token in the
Average line raises before the error extraction runs, so the record has
`errors = 0`, not 3. -/
theorem errs_success_cex :
    searchR3 (("Report: A\n * Average: 1..2 MiB/s, 3.0 obj/s\nErrs: 3").toList) =
      some 3 ∧
    (parse_warp_log (some
      (("Report: A\n * Average: 1..2 MiB/s, 3.0 obj/s\nErrs: 3").toList))).1.errors = 0 ∧
    (parse_warp_log (some
      (("Report: A\n * Average: 1..2 MiB/s, 3.0 obj/s\nErrs: 3").toList))).1.errors ≠ 3 := by
  refine ⟨by decide, by decide, by decide⟩

/-- Claim C5 (amended): provided the parser's exception branch does not run,
a log whose first `Errs:` occurrence reads `Errs: 3` (no further digit
following) parses to `errors = 3` and `success = false`; one whose first
occurrence reads `Errs: 0` keeps `errors = 0` and `success = true`; and in
general, absent the exception branch, the success flag is `false` exactly
when the extracted error count is positive. -/
theorem errs_success_flag :
    (∀ a b : List Char,
      (∀ i, i < a.length →
        stripLit (("Errs:").toList)
          ((a ++ ((("Errs: 3").toList) ++ b)).drop i) = none) →
      (∀ c, b.head? = some c → c.isDigit = false) →
      (parse_warp_log (some (a ++ ((("Errs: 3").toList) ++ b)))).2 = false →
      (parse_warp_log (some (a ++ ((("Errs: 3").toList) ++ b)))).1.errors = 3 ∧
      (parse_warp_log (some (a ++ ((("Errs: 3").toList) ++ b)))).1.success = false) ∧
    (∀ a b : List Char,
      (∀ i, i < a.length →
        stripLit (("Errs:").toList)
          ((a ++ ((("Errs: 0").toList) ++ b)).drop i) = none) →
      (∀ c, b.head? = some c → c.isDigit = false) →
      (parse_warp_log (some (a ++ ((("Errs: 0").toList) ++ b)))).2 = false →
      (parse_warp_log (some (a ++ ((("Errs: 0").toList) ++ b)))).1.errors = 0 ∧
      (parse_warp_log (some (a ++ ((("Errs: 0").toList) ++ b)))).1.success = true) ∧
    (∀ c : List Char, (parse_warp_log (some c)).2 = false →
      ((parse_warp_log (some c)).1.success = false ↔
        0 < (parse_warp_log (some c)).1.errors)) := by
  refine ⟨?_, ?_, ?_⟩
  · intro a b h1 hb hne
    have hs3 : searchR3 (a ++ ('E' :: 'r' :: 'r' :: 's' :: ':' :: ' ' :: '3' :: b)) =
        some 3 := searchR3_first a b '3' (by decide) h1 hb
    rw [parse_noexc_eq _ hne]
    simp [errsOf, succOf, hs3]
  · intro a b h1 hb hne
    have hs3 : searchR3 (a ++ ('E' :: 'r' :: 'r' :: 's' :: ':' :: ' ' :: '0' :: b)) =
        some 0 := searchR3_first a b '0' (by decide) h1 hb
    rw [parse_noexc_eq _ hne]
    simp [errsOf, succOf, hs3]
  · intro c hne
    rw [parse_noexc_eq _ hne]
    cases h3 : searchR3 c with
    | none => simp [errsOf, succOf]
    | some n =>
      by_cases hp : 0 < n <;> simp [errsOf, succOf, hp]

/-- Claim C5 witness: `"Reqs: 10, Errs: 3, Objs: 7"` parses to `errors = 3`
and `success = false`. -/
theorem errs_success_flag_spot :
    (parse_warp_log (some (("Reqs: 10, Errs: 3, Objs: 7").toList))).1.errors = 3 ∧
    (parse_warp_log (some (("Reqs: 10, Errs: 3, Objs: 7").toList))).1.success = false :=
  errs_success_flag.1 (("Reqs: 10, ").toList) ((", Objs: 7").toList)
    (by decide) (by decide) (by with_unfolding_all rfl)

/-! ### Claim C10: decimal units never reach the conversion -/

theorem stripCI_shape : ∀ (ps l u r : List Char), stripCI ps l = some (u, r) →
    u.map Char.toLower = ps.map Char.toLower ∧ l = u ++ r
  | [], l, u, r, h => by
    simp only [stripCI, Option.some.injEq, Prod.mk.injEq] at h
    obtain ⟨h1, h2⟩ := h
    subst h1; subst h2
    simp
  | p :: ps, [], u, r, h => by simp [stripCI] at h
  | p :: ps, c :: cs, u, r, h => by
    simp only [stripCI] at h
    by_cases htl : c.toLower = p.toLower
    · rw [if_pos htl] at h
      cases hin : stripCI ps cs with
      | none => simp [hin] at h
      | some pr =>
        obtain ⟨u', r'⟩ := pr
        simp only [hin, Option.some.injEq, Prod.mk.injEq] at h
        obtain ⟨h1, h2⟩ := h
        subst h1; subst h2
        have ih := stripCI_shape ps cs u' r' hin
        exact ⟨by simp [htl, ih.1], by simp [ih.2]⟩
    · rw [if_neg htl] at h
      exact Option.noConfusion h

theorem matchUnitAt_shape (l u r : List Char) (h : matchUnitAt l = some (u, r)) :
    u.map Char.toLower = (("mib/s").toList) ∨
    u.map Char.toLower = (("kib/s").toList) ∨
    u.map Char.toLower = (("gib/s").toList) := by
  cases h1 : stripCI (("MiB/s").toList) l with
  | some p =>
    obtain ⟨u', r'⟩ := p
    simp only [matchUnitAt, h1, Option.some.injEq, Prod.mk.injEq] at h
    obtain ⟨h2, h3⟩ := h
    subst h2
    exact Or.inl ((stripCI_shape _ _ _ _ h1).1.trans (by decide))
  | none =>
    cases h2 : stripCI (("KiB/s").toList) l with
    | some p =>
      obtain ⟨u', r'⟩ := p
      simp only [matchUnitAt, h1, h2, Option.some.injEq, Prod.mk.injEq] at h
      obtain ⟨h3, h4⟩ := h
      subst h3
      exact Or.inr (Or.inl ((stripCI_shape _ _ _ _ h2).1.trans (by decide)))
    | none =>
      simp only [matchUnitAt, h1, h2] at h
      exact Or.inr (Or.inr ((stripCI_shape _ _ _ _ h).1.trans (by decide)))

theorem startsWithL_map (f : Char → Char) :
    ∀ p l : List Char, startsWithL p l = true →
      startsWithL (p.map f) (l.map f) = true
  | [], _, _ => rfl
  | _ :: _, [], h => by simp [startsWithL] at h
  | p :: ps, c :: cs, h => by
    simp only [startsWithL, Bool.and_eq_true, decide_eq_true_eq] at h
    obtain ⟨h1, h2⟩ := h
    simp only [List.map_cons, startsWithL, Bool.and_eq_true, decide_eq_true_eq]
    exact ⟨by rw [h1], startsWithL_map f ps cs h2⟩

theorem hasSub_map (f : Char → Char) (p : List Char) :
    ∀ l : List Char, hasSub p l = true → hasSub (p.map f) (l.map f) = true
  | [], h => by
    simp only [hasSub] at h ⊢
    exact startsWithL_map f p [] h
  | c :: t, h => by
    simp only [hasSub, Bool.or_eq_true] at h ⊢
    rcases h with h | h
    · exact Or.inl (startsWithL_map f p (c :: t) h)
    · exact Or.inr (hasSub_map f p t h)

theorem unit_no_decimal_sub (u : List Char)
    (h : u.map Char.toLower = (("mib/s").toList) ∨
         u.map Char.toLower = (("kib/s").toList) ∨
         u.map Char.toLower = (("gib/s").toList)) :
    hasSub (("KB").toList) u = false ∧ hasSub (("GB").toList) u = false := by
  have key : ∀ pat : List Char,
      hasSub (pat.map Char.toLower) (u.map Char.toLower) = false →
      hasSub pat u = false := by
    intro pat hfalse
    cases hx : hasSub pat u with
    | false => rfl
    | true => exact absurd (hasSub_map Char.toLower pat u hx) (by simp [hfalse])
  rcases h with h | h | h <;>
    exact ⟨key _ (by rw [h]; decide), key _ (by rw [h]; decide)⟩

theorem searchWith_some {α : Type} (m : List Char → Option α) :
    ∀ (l : List Char) (x : α), searchWith m l = some x →
      ∃ t : List Char, m t = some x
  | [], x, h => absurd h (by simp [searchWith])
  | c :: t, x, h => by
    cases hm : m (c :: t) with
    | some y =>
      simp only [searchWith, hm, Option.some.injEq] at h
      exact ⟨c :: t, by rw [hm, h]⟩
    | none =>
      simp only [searchWith, hm] at h
      exact searchWith_some m t x h

theorem matchR1At_unit (l vTok u oTok : List Char)
    (h : matchR1At l = some (vTok, u, oTok)) :
    ∃ r9 r, matchUnitAt r9 = some (u, r) := by
  unfold matchR1At at h
  repeat' split at h
  all_goals try exact Option.noConfusion h
  simp only [Option.some.injEq, Prod.mk.injEq] at h
  obtain ⟨h1, h2, h3⟩ := h
  subst h2
  exact ⟨_, _, by assumption⟩

/-- Claim C10: (a) a decimal unit KB/s, MB/s or GB/s never matches the
Average-line unit alternation, so an Average line carrying one cannot
complete the report extraction there; (b) when the report extraction finds
no match, `throughput_mbps` and `ops_per_sec` stay 0; (c) the unit text
captured by any successful extraction never contains `"KB"` or `"GB"`, so
those two conversion branches are unreachable. -/
theorem decimal_units_unreachable :
    (∀ r : List Char,
       matchUnitAt ((("KB/s").toList) ++ r) = none ∧
       matchUnitAt ((("MB/s").toList) ++ r) = none ∧
       matchUnitAt ((("GB/s").toList) ++ r) = none) ∧
    (∀ c : List Char, searchR1 c = none →
       (parse_warp_log (some c)).1.throughput_mbps = 0 ∧
       (parse_warp_log (some c)).1.ops_per_sec = 0) ∧
    (∀ c vTok u oTok : List Char, searchR1 c = some (vTok, u, oTok) →
       hasSub (("KB").toList) u = false ∧
       hasSub (("GB").toList) u = false) := by
  refine ⟨?_, ?_, ?_⟩
  · intro r
    refine ⟨?_, ?_, ?_⟩ <;> simp +decide [matchUnitAt, stripCI]
  · intro c h
    have hstage : applyReport c ({} : WarpData) = .ok ({} : WarpData) := by
      simp [applyReport, h]
    cases hl : applyLatency c ({} : WarpData) with
    | error d =>
      have hp : parse_warp_log (some c) = (d, true) := by
        simp [parse_warp_log, hstage, hl]
      have k := applyLatency_keeps c {} d (Or.inr hl)
      rw [hp]
      exact ⟨k.1, k.2.1⟩
    | ok d2 =>
      have hp : parse_warp_log (some c) =
          (applyTotal c (applyErrors c d2), false) := by
        simp [parse_warp_log, hstage, hl]
      have k2 := applyLatency_keeps c {} d2 (Or.inl hl)
      have k3 := applyErrors_keeps c d2
      have k4 := applyTotal_keeps c (applyErrors c d2)
      rw [hp]
      constructor
      · show (applyTotal c (applyErrors c d2)).throughput_mbps = 0
        rw [k4.1, k3.1, k2.1]
      · show (applyTotal c (applyErrors c d2)).ops_per_sec = 0
        rw [k4.2.1, k3.2.1, k2.2.1]
  · intro c vTok u oTok h
    obtain ⟨l, hl⟩ := searchWith_some matchR1At c (vTok, u, oTok) h
    obtain ⟨r9, r, hu⟩ := matchR1At_unit l vTok u oTok hl
    exact unit_no_decimal_sub u (matchUnitAt_shape r9 u r hu)

/-- Claim C10 witness: a log whose Average line reads `120.50 KB/s` leaves
`throughput_mbps` and `ops_per_sec` at 0, and `KB/s` text never matches the
unit alternation. -/
theorem decimal_units_unreachable_spot :
    matchUnitAt (("KB/s, 45.00 obj/s").toList) = none ∧
    (parse_warp_log (some
      (("Report: x\n * Average: 120.50 KB/s, 45.00 obj/s").toList))).1.throughput_mbps = 0 ∧
    hasSub (("KB").toList) (("MiB/s").toList) = false := by
  refine ⟨?_, ?_, ?_⟩
  · exact (decimal_units_unreachable.1 ((", 45.00 obj/s").toList)).1
  · exact (decimal_units_unreachable.2.1
      (("Report: x\n * Average: 120.50 KB/s, 45.00 obj/s").toList) (by decide)).1
  · exact (decimal_units_unreachable.2.2
      (("Report: y\n * Average: 1.0 MiB/s, 2.0 obj/s").toList)
      (("1.0").toList) (("MiB/s").toList) (("2.0").toList) (by decide)).1

/-! ### Claim C6: extraction of the Report/Average pair -/

theorem matchR1At_eq_none (l : List Char)
    (h : stripCI (("Report:").toList) l = none) : matchR1At l = none := by
  have h' : stripCI ('R' :: 'e' :: 'p' :: 'o' :: 'r' :: 't' :: ':' :: []) l =
      none := h
  simp [matchR1At, h']

theorem applyReport_of_search (c vTok u oTok : List Char) (v o : ℚ)
    (h1 : searchR1 c = some (vTok, u, oTok))
    (hv : floatOfTok vTok = some v) (ho : floatOfTok oTok = some o) :
    applyReport c ({} : WarpData) =
      .ok { throughput_mbps := convertUnit u v, ops_per_sec := o } := by
  simp [applyReport, h1, hv, ho]

theorem parse_stages_error (c : List Char) (d1 d : WarpData)
    (h1 : applyReport c ({} : WarpData) = .ok d1)
    (h2 : applyLatency c d1 = .error d) :
    parse_warp_log (some c) = (d, true) := by
  simp [parse_warp_log, h1, h2]

theorem parse_stages_ok (c : List Char) (d1 d2 : WarpData)
    (h1 : applyReport c ({} : WarpData) = .ok d1)
    (h2 : applyLatency c d1 = .ok d2) :
    parse_warp_log (some c) = (applyTotal c (applyErrors c d2), false) := by
  simp [parse_warp_log, h1, h2]

theorem matchR1At_c6 (ln b : List Char)
    (hln : ∀ c ∈ ln, (c == '\n') = false) :
    matchR1At ((("Report: PUT").toList) ++
      (ln ++ ((("\n * Average: 120.50 MiB/s, 45.00 obj/s").toList) ++ b))) =
      some ((("120.50").toList), (("MiB/s").toList), (("45.00").toList)) := by
  have h1 : ∀ rest : List Char,
      List.dropWhile (fun c => !(c == '\n')) (ln ++ ('\n' :: rest)) =
        '\n' :: rest := by
    intro rest
    rw [dropWhile_append_of_all _ (fun c hc => by simp [hln c hc])]
    simp +decide [List.dropWhile_cons]
  simp +decide [matchR1At, stripCI, ws1, numTok, matchUnitAt, isSpaceChar,
    isNumChar, h1, List.dropWhile_cons, List.takeWhile_cons]

/-- Claim C6, counterexample to the claim as stated: this log contains
`Report: PUT` followed by the Average line `120.50 MiB/s, 45.00 obj/s`, yet
`re.search` takes the leftmost match, so the earlier GET pair wins and the
parser returns 1.00 and 2.00, not 120.50 and 45.00. -/
theorem report_extraction_cex :
    (parse_warp_log (some
      (("Report: GET\n * Average: 1.00 MiB/s, 2.00 obj/s\nReport: PUT\n * Average: 120.50 MiB/s, 45.00 obj/s").toList))).1.throughput_mbps = 1 ∧
    (parse_warp_log (some
      (("Report: GET\n * Average: 1.00 MiB/s, 2.00 obj/s\nReport: PUT\n * Average: 120.50 MiB/s, 45.00 obj/s").toList))).1.ops_per_sec = 2 ∧
    ¬ ((1 : ℚ) = 241 / 2) := by
  refine ⟨?_, ?_, by norm_num⟩ <;> with_unfolding_all rfl

/-- Claim C6 (amended): for every log in which the first case-insensitive
occurrence of `Report:` begins a Report line immediately followed by the
Average line ` * Average: 120.50 MiB/s, 45.00 obj/s`, the parser returns
`throughput_mbps = 120.50` and `ops_per_sec = 45.00` (`re.search` uses the
leftmost match, so an earlier matching Report/Average pair would take
precedence — hence the first-occurrence restriction). -/
theorem report_extraction (a ln b : List Char)
    (hfirst : ∀ i, i < a.length →
      stripCI (("Report:").toList)
        ((a ++ ((("Report: PUT").toList) ++
          (ln ++ ((("\n * Average: 120.50 MiB/s, 45.00 obj/s").toList) ++ b)))).drop i) = none)
    (hln : ∀ c ∈ ln, (c == '\n') = false) :
    (parse_warp_log (some (a ++ ((("Report: PUT").toList) ++
      (ln ++ ((("\n * Average: 120.50 MiB/s, 45.00 obj/s").toList) ++ b)))))).1.throughput_mbps = 241 / 2 ∧
    (parse_warp_log (some (a ++ ((("Report: PUT").toList) ++
      (ln ++ ((("\n * Average: 120.50 MiB/s, 45.00 obj/s").toList) ++ b)))))).1.ops_per_sec = 45 := by
  have hsr1 : searchR1 (a ++ ((("Report: PUT").toList) ++
      (ln ++ ((("\n * Average: 120.50 MiB/s, 45.00 obj/s").toList) ++ b)))) =
      some ((("120.50").toList), (("MiB/s").toList), (("45.00").toList)) := by
    have hskip := searchWith_append_none matchR1At a
      ((("Report: PUT").toList) ++
        (ln ++ ((("\n * Average: 120.50 MiB/s, 45.00 obj/s").toList) ++ b)))
      (fun i hi => matchR1At_eq_none _ (hfirst i hi))
    show searchWith matchR1At _ = _
    rw [hskip]
    exact searchWith_cons_of_match matchR1At 'R' _ _ (matchR1At_c6 ln b hln)
  have hv : floatOfTok (("120.50").toList) = some (241 / 2) := by
    with_unfolding_all rfl
  have ho : floatOfTok (("45.00").toList) = some 45 := by
    with_unfolding_all rfl
  have hconv : convertUnit (("MiB/s").toList) ((241 : ℚ) / 2) = 241 / 2 := by
    simp +decide [convertUnit]
  have hstage := applyReport_of_search _ _ _ _ _ _ hsr1 hv ho
  rw [hconv] at hstage
  cases hl : applyLatency (a ++ ((("Report: PUT").toList) ++
      (ln ++ ((("\n * Average: 120.50 MiB/s, 45.00 obj/s").toList) ++ b))))
      { throughput_mbps := 241 / 2, ops_per_sec := 45 } with
  | error d =>
    have hp := parse_stages_error _ _ d hstage hl
    have k := applyLatency_keeps _ _ d (Or.inr hl)
    rw [hp]
    exact ⟨k.1, k.2.1⟩
  | ok d2 =>
    have hp := parse_stages_ok _ _ d2 hstage hl
    have k2 := applyLatency_keeps _ _ d2 (Or.inl hl)
    have k3 := applyErrors_keeps (a ++ ((("Report: PUT").toList) ++
      (ln ++ ((("\n * Average: 120.50 MiB/s, 45.00 obj/s").toList) ++ b)))) d2
    have k4 := applyTotal_keeps (a ++ ((("Report: PUT").toList) ++
      (ln ++ ((("\n * Average: 120.50 MiB/s, 45.00 obj/s").toList) ++ b))))
      (applyErrors (a ++ ((("Report: PUT").toList) ++
        (ln ++ ((("\n * Average: 120.50 MiB/s, 45.00 obj/s").toList) ++ b)))) d2)
    rw [hp]
    exact ⟨by rw [k4.1, k3.1, k2.1], by rw [k4.2.1, k3.2.1, k2.2.1]⟩

/-- Claim C6 witness: a log whose first `Report:` occurrence heads the given
pair parses to 120.50 MiB/s and 45.00 obj/s, with arbitrary text around. -/
theorem report_extraction_spot :
    (parse_warp_log (some
      (("log start\n").toList ++ ((("Report: PUT").toList) ++
        (((". Obj size 4MiB.").toList) ++
          ((("\n * Average: 120.50 MiB/s, 45.00 obj/s").toList) ++
            (("\nMore text").toList))))))).1.throughput_mbps = 241 / 2 ∧
    (parse_warp_log (some
      (("log start\n").toList ++ ((("Report: PUT").toList) ++
        (((". Obj size 4MiB.").toList) ++
          ((("\n * Average: 120.50 MiB/s, 45.00 obj/s").toList) ++
            (("\nMore text").toList))))))).1.ops_per_sec = 45 :=
  report_extraction (("log start\n").toList) ((". Obj size 4MiB.").toList)
    (("\nMore text").toList) (by decide) (by decide)

end S3Warp
